import Mathlib

/-!
Verification of the record-reconciliation pipeline of the
restaurant-business-directory-scraper repository: the data processor
(filtering, cleaning, validation, deduplication, merging) in
`src/processors/data_processor.py` and the cross-source merge in
`src/scraper_manager.py`, shallowly embedded in Lean.

Modelling conventions:
- Python `str` is `String` (a list of characters); the regex classes
  `\w`/`\s` and `str.lower()` are modelled over their ASCII meaning.
- Python floats (ratings, similarity scores) are modelled as `ℚ`: every
  comparison the code performs is on exactly-representable short decimal
  values, and the claims concern branch structure, not rounding.
- Python `None`-able fields are `Option _`; Python truthiness (`if x:`)
  is modelled by explicit `...Truthy` helpers (`None`, `""`, `0`, `0.0`
  and `[]` are falsy).
- Fallible operations return `Option _`.
-/

/-! ## Character and string utilities (ASCII model of Python semantics) -/

/-- The apostrophe character (code point 39). -/
def apostChar : Char := Char.ofNat 39

/-- ASCII model of the regex class `\s` (Python whitespace). -/
def pyIsSpace (c : Char) : Bool :=
  c = ' ' || c = '\t' || c = '\n' || c = '\r' || c = Char.ofNat 11 || c = Char.ofNat 12

/-- ASCII model of the regex class `\w`: letters, digits and underscore. -/
def pyIsWord (c : Char) : Bool :=
  c.isAlpha || c.isDigit || c = '_'

/-- ASCII model of lowercasing a character, as `str.lower()` does. -/
def lowerChar (c : Char) : Char :=
  if 'A' ≤ c ∧ c ≤ 'Z' then Char.ofNat (c.toNat + 32) else c

/-- `str.lower()`. -/
def lowerStr (s : String) : String := ⟨s.data.map lowerChar⟩

/-- `str.strip()` with no argument: drop leading and trailing whitespace. -/
def stripList (l : List Char) : List Char :=
  ((l.dropWhile pyIsSpace).reverse.dropWhile pyIsSpace).reverse

/-- Auxiliary for whitespace collapse: the flag records whether the
previous character was whitespace (i.e. we are inside a whitespace run
whose single replacement space was already emitted). -/
def collapseWsAux : Bool → List Char → List Char
  | _, [] => []
  | prevWs, c :: cs =>
    if pyIsSpace c then
      if prevWs then collapseWsAux true cs else ' ' :: collapseWsAux true cs
    else c :: collapseWsAux false cs

/-- `re.sub(r'\s+', ' ', text)`: replace each whitespace run by one space. -/
def collapseWs (l : List Char) : List Char := collapseWsAux false l

/-- The character allow-list of `_clean_text`:
`[^\w\s\-\.\,\&\'\(\)\/]` is removed, so word characters, whitespace and
this punctuation list are kept. -/
def allowedChar (c : Char) : Bool :=
  pyIsWord c || pyIsSpace c ||
    c = '-' || c = '.' || c = ',' || c = '&' || c = apostChar ||
    c = '(' || c = ')' || c = '/'

/-- `DataProcessor._clean_text`: strip, collapse whitespace runs to one
space, then remove characters outside the allow-list. -/
def cleanText (s : String) : String :=
  if s = "" then ""
  else ⟨(collapseWs (stripList s.data)).filter allowedChar⟩

/-- `(AAA) BBB-CCCC` formatting of a 10-character list, as the f-string
`f"({phone[:3]}) {phone[3:6]}-{phone[6:]}"` produces. -/
def formatPhone10 (p : List Char) : List Char :=
  '(' :: p.take 3 ++ ')' :: ' ' :: (p.drop 3).take 3 ++ '-' :: p.drop 6

/-- `DataProcessor._clean_phone_number`: keep only digits and `+`
(`re.sub(r'[^\d\+]', '', phone)`), then format by the LENGTH of what is
kept (`len(phone)`), which counts any retained `+` characters. -/
def cleanPhoneNumber (s : String) : String :=
  let p := s.data.filter (fun c => c.isDigit || c = '+')
  if p.length = 10 then ⟨formatPhone10 p⟩
  else if p.length = 11 ∧ p.headD ' ' = '1' then ⟨formatPhone10 (p.drop 1)⟩
  else ⟨p⟩

/-- Leftmost run of five consecutive digits, as `re.search(r'(\d{5})')`
finds it: try each start position from the left. -/
def findFiveDigits : List Char → Option (List Char)
  | [] => none
  | c :: cs =>
    if ((c :: cs).take 5).length = 5 ∧ ((c :: cs).take 5).all Char.isDigit
    then some ((c :: cs).take 5)
    else findFiveDigits cs

/-- `DataProcessor._clean_zip_code`: extract the first 5-digit run, or
return the input unchanged when there is none. -/
def cleanZipCode (s : String) : String :=
  match findFiveDigits s.data with
  | some w => ⟨w⟩
  | none => s

/-- `DataProcessor._clean_url`: strip, then prepend `https://` when no
`http://`/`https://` prefix is present. -/
def cleanUrl (s : String) : String :=
  let t : String := ⟨stripList s.data⟩
  if t.startsWith "http://" ∨ t.startsWith "https://" then t else "https://" ++ t

/-- `DataProcessor._clean_email`: strip and lowercase. -/
def cleanEmail (s : String) : String := lowerStr ⟨stripList s.data⟩

/-! ## Python truthiness helpers -/

/-- Truthiness of an optional string: `None` and `""` are falsy. -/
def strTruthy : Option String → Bool
  | none => false
  | some s => if s = "" then false else true

/-- Truthiness of an optional rational (Python float): `None` and `0.0`
are falsy. -/
def ratTruthy : Option ℚ → Bool
  | none => false
  | some r => if r = 0 then false else true

/-- Truthiness of an optional integer: `None` and `0` are falsy. -/
def intTruthy : Option ℤ → Bool
  | none => false
  | some n => if n = 0 then false else true

/-- Python `f"{x}"` of an optional string: `None` renders as the literal
text `"None"`. -/
def pyStrOpt : Option String → String
  | none => "None"
  | some s => s

/-- Python `needle in hay` on strings: contiguous-substring test. -/
def isSubstr (needle hay : List Char) : Bool :=
  (List.range (hay.length + 1)).any (fun i => needle.isPrefixOf (hay.drop i))

/-! ## Data model (`src/models.py`) -/

/-- `Review` of `src/models.py` (the `datetime` field is modelled as an
integer timestamp). -/
structure Review where
  id : String
  author_name : String
  rating : ℚ
  text : String
  date : ℤ
  platform : String
  helpful_votes : ℤ
  sentiment_score : Option ℚ
  sentiment_label : Option String
deriving DecidableEq

/-- `BusinessHours` of `src/models.py`. -/
structure BusinessHours where
  monday : Option String
  tuesday : Option String
  wednesday : Option String
  thursday : Option String
  friday : Option String
  saturday : Option String
  sunday : Option String
deriving DecidableEq

/-- `Business` of `src/models.py` (creation-time metadata `scraped_at`
is omitted; `last_updated` is an integer timestamp). -/
structure Business where
  name : String
  address : String
  city : String
  state : String
  zip_code : String
  country : String
  phone : Option String
  website : Option String
  email : Option String
  category : Option String
  cuisine_type : Option String
  price_level : Option String
  latitude : Option ℚ
  longitude : Option ℚ
  rating : Option ℚ
  review_count : ℤ
  reviews : List Review
  hours : Option BusinessHours
  yelp_id : Option String
  yelp_url : Option String
  google_place_id : Option String
  google_url : Option String
  features : List String
  photos : List String
  data_sources : List String
  email_validated : Bool
  is_duplicate : Bool
  last_updated : ℤ
deriving DecidableEq

/-- `SearchFilter` of `src/models.py`. -/
structure SearchFilter where
  city : Option String
  radius : Option ℚ
  cuisine_type : Option String
  min_rating : Option ℚ
  max_rating : Option ℚ
  min_reviews : Option ℤ
  keywords : Option String
  price_levels : List String
  features : List String
deriving DecidableEq

/-! ## Filter engine (`DataProcessor._passes_filters`) — each early-return
block of the Python function is one named check here; the function is their
conjunction, which is equivalent because each block is pure. -/

/-- `if search_filter.min_rating and business.rating: if business.rating <
search_filter.min_rating: return False`. -/
def ratingMinOk (b : Business) (f : SearchFilter) : Bool :=
  if ratTruthy f.min_rating && ratTruthy b.rating
  then decide (f.min_rating.getD 0 ≤ b.rating.getD 0)
  else true

/-- The `max_rating` block. -/
def ratingMaxOk (b : Business) (f : SearchFilter) : Bool :=
  if ratTruthy f.max_rating && ratTruthy b.rating
  then decide (b.rating.getD 0 ≤ f.max_rating.getD 0)
  else true

/-- The `min_reviews` block (`business.review_count` is always present). -/
def reviewsOk (b : Business) (f : SearchFilter) : Bool :=
  if intTruthy f.min_reviews
  then decide (f.min_reviews.getD 0 ≤ b.review_count)
  else true

/-- The cuisine block: with the criterion supplied, a record with an
absent (or empty) `cuisine_type` fails; otherwise a lowercased substring
test is applied. -/
def cuisineOk (b : Business) (f : SearchFilter) : Bool :=
  if strTruthy f.cuisine_type
  then strTruthy b.cuisine_type &&
    isSubstr (lowerStr (f.cuisine_type.getD "")).data (lowerStr (b.cuisine_type.getD "")).data
  else true

/-- `f"{business.name} {business.category} {business.cuisine_type}".lower()`:
absent `category`/`cuisine_type` render as the literal text `None`. -/
def searchableText (b : Business) : String :=
  lowerStr (b.name ++ " " ++ pyStrOpt b.category ++ " " ++ pyStrOpt b.cuisine_type)

/-- The keywords block: lowercased substring test against `searchableText`. -/
def keywordsOk (b : Business) (f : SearchFilter) : Bool :=
  if strTruthy f.keywords
  then isSubstr (lowerStr (f.keywords.getD "")).data (searchableText b).data
  else true

/-- The price-level block: `business.price_level not in
search_filter.price_levels` excludes; an absent price level is never a
member. -/
def priceOk (b : Business) (f : SearchFilter) : Bool :=
  if f.price_levels = [] then true
  else match b.price_level with
    | some p => decide (p ∈ f.price_levels)
    | none => false

/-- The features block: every required feature must appear (lowercased)
among the record's lowercased features. -/
def featuresOk (b : Business) (f : SearchFilter) : Bool :=
  if f.features = [] then true
  else f.features.all (fun rf => decide (lowerStr rf ∈ b.features.map lowerStr))

/-- `DataProcessor._passes_filters`. -/
def passesFilters (b : Business) (f : SearchFilter) : Bool :=
  ratingMinOk b f && ratingMaxOk b f && reviewsOk b f && cuisineOk b f &&
    keywordsOk b f && priceOk b f && featuresOk b f

/-- `DataProcessor.apply_filters`. -/
def applyFilters (l : List Business) (f : SearchFilter) : List Business :=
  l.filter (fun b => passesFilters b f)

/-! ## Validation and cleaning (`DataProcessor.validate_and_clean`) -/

/-- The `rating is not None` bound check of `_is_valid_business`:
a present rating outside `[0, 5]` is invalid. -/
def ratingOutOfRange : Option ℚ → Bool
  | some r => decide (¬(0 ≤ r ∧ r ≤ 5))
  | none => false

/-- `DataProcessor._is_valid_business`. -/
def isValidBusiness (b : Business) : Bool :=
  if b.name = "" ∨ (stripList b.name.data).length < 2 then false
  else if b.address = "" ∧ b.city = "" ∧ b.state = "" then false
  else if ratingOutOfRange b.rating then false
  else if b.review_count < 0 then false
  else true

/-- `DataProcessor._clean_business_data`: clean each field; note that a
falsy (`None` or empty) `category`/`cuisine_type` becomes `None`. -/
def cleanBusinessData (b : Business) : Business :=
  { b with
    name := cleanText b.name
    address := if b.address = "" then "" else cleanText b.address
    city := if b.city = "" then "" else cleanText b.city
    state := if b.state = "" then "" else cleanText b.state
    zip_code := if b.zip_code = "" then "" else cleanZipCode b.zip_code
    phone := if strTruthy b.phone then some (cleanPhoneNumber (b.phone.getD "")) else b.phone
    website := if strTruthy b.website then some (cleanUrl (b.website.getD "")) else b.website
    email := if strTruthy b.email then some (cleanEmail (b.email.getD "")) else b.email
    category := if strTruthy b.category then some (cleanText (b.category.getD "")) else none
    cuisine_type := if strTruthy b.cuisine_type then some (cleanText (b.cuisine_type.getD "")) else none }

/-- `DataProcessor.validate_and_clean`: skip records whose name is empty
or all-whitespace, clean the rest, keep the structurally valid ones. -/
def validateAndClean (l : List Business) : List Business :=
  l.foldl (fun acc b =>
    if b.name = "" ∨ stripList b.name.data = [] then acc
    else
      let b2 := cleanBusinessData b
      if isValidBusiness b2 then acc ++ [b2] else acc) []

/-! ## Similarity matcher: `difflib.SequenceMatcher(None, a, b).ratio()`
as `_calculate_similarity` uses it.  The standard-library algorithm is
embedded: `b2j` indexes the second sequence (with the `autojunk`
popularity purge), `find_longest_match` folds over the first sequence
threading the `j2len` run-length table, the matched block is extended
while ends agree, and the total matched size is summed over the
divide-and-conquer recursion of `get_matching_blocks`.  The two
junk-extension loops of `find_longest_match` are omitted: with no junk
predicate the junk set is empty and they never run. -/

/-- `b2j`: ascending indices of the occurrences of `c` in `b`; when `b`
has at least 200 elements, a character occurring more than
`len(b) // 100 + 1` times is "popular" and purged (autojunk). -/
def b2j (b : List Char) (c : Char) : List ℕ :=
  let idxs := (List.range b.length).filter (fun j => b.getD j ' ' = c)
  if 200 ≤ b.length ∧ b.length / 100 + 1 < idxs.length then [] else idxs

/-- The best matching block found so far: `a[besti..besti+bestsize) =
b[bestj..bestj+bestsize)`. -/
structure FLMBest where
  besti : ℕ
  bestj : ℕ
  bestsize : ℕ

/-- `j2len.get(j, 0)` on the association list representing `j2len`. -/
def lookupLen (m : List (ℕ × ℕ)) (j : ℕ) : ℕ :=
  match m.find? (fun p => decide (p.1 = j)) with
  | some p => p.2
  | none => 0

/-- The inner loop of `find_longest_match` at row `i`: for each
qualifying index `j` of `b2j[a[i]]`, the run length ending at `(i, j)` is
one more than the previous row's run ending at `(i-1, j-1)` (`j2len.get(j-1,
0) + 1`; at `j = 0` Python reads key `-1`, which is absent). -/
def flmInner (i : ℕ) (old : List (ℕ × ℕ)) :
    List ℕ → List (ℕ × ℕ) → FLMBest → List (ℕ × ℕ) × FLMBest
  | [], acc, best => (acc, best)
  | j :: js, acc, best =>
    let k := (if j = 0 then 0 else lookupLen old (j - 1)) + 1
    let best2 := if best.bestsize < k then ⟨i + 1 - k, j + 1 - k, k⟩ else best
    flmInner i old js ((j, k) :: acc) best2

/-- The outer loop of `find_longest_match` over rows `i ∈ [alo, ahi)`;
the `continue`/`break` pair restricting `j` to `[blo, bhi)` becomes
`takeWhile`/`filter` on the ascending index list. -/
def flmOuter (a b : List Char) (blo bhi : ℕ) :
    List ℕ → List (ℕ × ℕ) → FLMBest → FLMBest
  | [], _, best => best
  | i :: is, j2len, best =>
    let js := ((b2j b (a.getD i ' ')).takeWhile (fun j => decide (j < bhi))).filter
      (fun j => decide (blo ≤ j))
    let r := flmInner i j2len js [] best
    flmOuter a b blo bhi is r.1 r.2

/-- Forward while-loop extension: length of the common run at `a[i..]`,
`b[j..]`, fuel bounding both window ends simultaneously. -/
def extFwd (a b : List Char) : ℕ → ℕ → ℕ → ℕ
  | _, _, 0 => 0
  | i, j, n + 1 => if a.getD i ' ' = b.getD j ' ' then extFwd a b (i + 1) (j + 1) n + 1 else 0

/-- Backward while-loop extension: length of the common run ending just
before `a[i]`, `b[j]`. -/
def extBack (a b : List Char) : ℕ → ℕ → ℕ → ℕ
  | _, _, 0 => 0
  | i, j, n + 1 =>
    if a.getD (i - 1) ' ' = b.getD (j - 1) ' ' then extBack a b (i - 1) (j - 1) n + 1 else 0

/-- `find_longest_match(alo, ahi, blo, bhi)`: the fold phase starting
from `(alo, blo, 0)`, then the backward and forward extensions. -/
def findLongestMatch (a b : List Char) (alo ahi blo bhi : ℕ) : ℕ × ℕ × ℕ :=
  let best := flmOuter a b blo bhi (List.range' alo (ahi - alo)) [] ⟨alo, blo, 0⟩
  let t := extBack a b best.besti best.bestj (min (best.besti - alo) (best.bestj - blo))
  let i1 := best.besti - t
  let j1 := best.bestj - t
  let k1 := best.bestsize + t
  let u := extFwd a b (i1 + k1) (j1 + k1) (min (ahi - (i1 + k1)) (bhi - (j1 + k1)))
  (i1, j1, k1 + u)

/-- Total matched size over `get_matching_blocks`' divide-and-conquer
recursion (the only quantity `ratio` needs).  The fuel argument is an
upper bound on the window width `ahi - alo`, which strictly shrinks at
each recursive call, so `a.length` fuel at the top call never runs out. -/
def matchesTotF (a b : List Char) : ℕ → ℕ → ℕ → ℕ → ℕ → ℕ
  | 0, _, _, _, _ => 0
  | fuel + 1, alo, ahi, blo, bhi =>
    let r := findLongestMatch a b alo ahi blo bhi
    let i := r.1
    let j := r.2.1
    let k := r.2.2
    if k = 0 then 0
    else k + (if alo < i ∧ blo < j then matchesTotF a b fuel alo i blo j else 0)
           + (if i + k < ahi ∧ j + k < bhi then matchesTotF a b fuel (i + k) ahi (j + k) bhi else 0)

/-- `SequenceMatcher.ratio()`: `2 * matches / (len(a) + len(b))`, and `1`
on two empty sequences (`difflib._calculate_ratio`). -/
def ratioQ (a b : List Char) : ℚ :=
  let m := matchesTotF a b a.length 0 a.length 0 b.length
  if a.length + b.length = 0 then 1 else (2 * m : ℚ) / (a.length + b.length)

/-- `DataProcessor._calculate_similarity`: `0.0` when either string is
empty, otherwise the `SequenceMatcher` ratio of the lowercased strings. -/
def calculateSimilarity (s1 s2 : String) : ℚ :=
  if s1 = "" ∨ s2 = "" then 0
  else ratioQ (s1.data.map lowerChar) (s2.data.map lowerChar)

/-- `DataProcessor._are_duplicates`: name similarity below `0.8` rejects;
address similarity below `0.7` rejects only when both addresses are
non-empty; city similarity below `0.8` rejects only when both cities are
non-empty. -/
def areDuplicates (b1 b2 : Business) : Bool :=
  if calculateSimilarity b1.name b2.name < (8 : ℚ) / 10 then false
  else if b1.address ≠ "" ∧ b2.address ≠ "" ∧
      calculateSimilarity b1.address b2.address < (7 : ℚ) / 10 then false
  else if b1.city ≠ "" ∧ b2.city ≠ "" ∧
      calculateSimilarity b1.city b2.city < (8 : ℚ) / 10 then false
  else true

/-! ## Deduplication engine (`DataProcessor.remove_duplicates`) -/

/-- `DataProcessor._create_business_signature`.  The code hashes the
normalized text with `hashlib.md5(...).hexdigest()` and uses the digest
only for set-membership equality; the hash is therefore modelled as the
identity on the `name_address_city` signature text. -/
def businessSignature (b : Business) : String :=
  (if b.name = "" then "" else ⟨(b.name.data.map lowerChar).filter pyIsWord⟩) ++ "_" ++
  (if b.address = "" then "" else ⟨(b.address.data.map lowerChar).filter pyIsWord⟩) ++ "_" ++
  (if b.city = "" then "" else lowerStr b.city)

/-- The append-if-absent list union used for `data_sources`, `features`
and `photos` in `_merge_duplicate_data` (membership is checked against
the growing list). -/
def unionAppend (base new : List String) : List String :=
  new.foldl (fun acc s => if s ∈ acc then acc else acc ++ [s]) base

/-- `DataProcessor._merge_duplicate_data`, functionally: the survivor
`primary` updated with data from the absorbed `dup`.  Contact fields fill
gaps only; the platform URL and id move together; rating adoption and the
review-count maximum both compare the ORIGINAL review counts (the rating
test runs before the count update in the source). -/
def mergeDuplicateData (primary dup : Business) : Business :=
  { primary with
    phone := if ¬strTruthy primary.phone ∧ strTruthy dup.phone then dup.phone else primary.phone
    website :=
      if ¬strTruthy primary.website ∧ strTruthy dup.website then dup.website else primary.website
    email := if ¬strTruthy primary.email ∧ strTruthy dup.email then dup.email else primary.email
    yelp_url :=
      if strTruthy dup.yelp_url ∧ ¬strTruthy primary.yelp_url then dup.yelp_url else primary.yelp_url
    yelp_id :=
      if strTruthy dup.yelp_url ∧ ¬strTruthy primary.yelp_url then dup.yelp_id else primary.yelp_id
    google_url :=
      if strTruthy dup.google_url ∧ ¬strTruthy primary.google_url then dup.google_url
      else primary.google_url
    google_place_id :=
      if strTruthy dup.google_url ∧ ¬strTruthy primary.google_url then dup.google_place_id
      else primary.google_place_id
    data_sources := unionAppend primary.data_sources dup.data_sources
    rating :=
      if ratTruthy dup.rating ∧ (¬ratTruthy primary.rating ∨ primary.review_count < dup.review_count)
      then dup.rating else primary.rating
    review_count :=
      if primary.review_count < dup.review_count then dup.review_count else primary.review_count
    features := unionAppend primary.features dup.features
    photos := unionAppend primary.photos dup.photos }

/-- The scan of `remove_duplicates` over the survivors so far: merge the
candidate into the FIRST survivor the duplicate predicate matches
(`break`), or report no match. -/
def mergeIntoMatch (b : Business) : List Business → Option (List Business)
  | [] => none
  | u :: rest =>
    if areDuplicates b u then some (mergeDuplicateData u b :: rest)
    else match mergeIntoMatch b rest with
      | some rest2 => some (u :: rest2)
      | none => none

/-- The loop state of `remove_duplicates`: registered signatures,
accepted survivors and the dropped (flagged) records. -/
structure DedupState where
  seen : List String
  uniques : List Business
  dropped : List Business
deriving DecidableEq

/-- One iteration of `remove_duplicates`: a signature hit drops the
record (flagged `is_duplicate`) at once, without merging; otherwise a
similarity match merges it into its survivor and drops it (flagged); a
record matching nothing is accepted and registers its signature.  (The
code sets the flag before the merge, but the merge never reads it.) -/
def dedupStep (st : DedupState) (b : Business) : DedupState :=
  if businessSignature b ∈ st.seen then
    { st with dropped := st.dropped ++ [{ b with is_duplicate := true }] }
  else
    match mergeIntoMatch b st.uniques with
    | some us => { st with uniques := us, dropped := st.dropped ++ [{ b with is_duplicate := true }] }
    | none =>
      { seen := st.seen ++ [businessSignature b], uniques := st.uniques ++ [b],
        dropped := st.dropped }

/-- `DataProcessor.remove_duplicates` with the full final state. -/
def removeDuplicatesFull (l : List Business) : DedupState :=
  l.foldl dedupStep ⟨[], [], []⟩

/-- `DataProcessor.remove_duplicates`: the surviving records. -/
def removeDuplicates (l : List Business) : List Business :=
  (removeDuplicatesFull l).uniques

/-! ## Email validation and the pipeline orchestrator -/

/-- `DataProcessor.validate_emails`, parameterized by the external
`email_validator` library (not part of this repository): the validator
returns the normalized address, or nothing for an invalid one.  Records
with a falsy email are left untouched. -/
def validateEmails (validF : String → Option String) (l : List Business) : List Business :=
  l.map (fun b =>
    if strTruthy b.email then
      match validF (b.email.getD "") with
      | some e => { b with email := some e, email_validated := true }
      | none => { b with email := none, email_validated := false }
    else b)

/-- `DataProcessor.process_businesses`: filter (when a filter is given),
validate and clean, deduplicate, then validate emails (when enabled by
configuration). -/
def processBusinesses (validF : String → Option String) (emailEnabled : Bool)
    (sf : Option SearchFilter) (l : List Business) : List Business :=
  let l1 := match sf with
    | some f => applyFilters l f
    | none => l
  let l2 := validateAndClean l1
  let l3 := removeDuplicates l2
  if emailEnabled then validateEmails validF l3 else l3

/-! ## Cross-source merge (`ScraperManager._merge_business_data`) -/

/-- `len(str(v))` of an optional string: `str(None)` is the 4-character
text `None` (only ever compared when the base value is truthy). -/
def pyLenStr : Option String → ℕ
  | none => 4
  | some s => s.length

/-- The `choose_value` helper on required string fields: prefer the new
value when it is non-empty and the base is empty or strictly shorter. -/
def chooseValueStr (base new : String) : String :=
  if new ≠ "" ∧ (base = "" ∨ base.length < new.length) then new else base

/-- The `choose_value` helper on optional string fields. -/
def chooseValueOpt (base new : Option String) : Option String :=
  if strTruthy new ∧ (¬strTruthy base ∨ pyLenStr base < pyLenStr new) then new else base

/-- `list(set(l))` on string lists, modelled as the order-preserving
duplicate-free list of `l`'s elements (Python's set order is
unspecified; every use here depends only on membership). -/
def pySetList (l : List String) : List String :=
  l.foldl (fun acc s => if s ∈ acc then acc else acc ++ [s]) []

/-- `ScraperManager._merge_business_data`: the "prefer longer value"
cross-source merge of two records known to be the same entity. -/
def mergeBusinessData (base new : Business) : Business :=
  { base with
    name := chooseValueStr base.name new.name
    address := chooseValueStr base.address new.address
    city := chooseValueStr base.city new.city
    state := chooseValueStr base.state new.state
    zip_code := chooseValueStr base.zip_code new.zip_code
    phone := chooseValueOpt base.phone new.phone
    website := chooseValueOpt base.website new.website
    email := chooseValueOpt base.email new.email
    category := chooseValueOpt base.category new.category
    cuisine_type := chooseValueOpt base.cuisine_type new.cuisine_type
    price_level := chooseValueOpt base.price_level new.price_level
    latitude :=
      if ratTruthy new.latitude ∧ ratTruthy new.longitude then new.latitude else base.latitude
    longitude :=
      if ratTruthy new.latitude ∧ ratTruthy new.longitude then new.longitude else base.longitude
    rating :=
      if ratTruthy new.rating then
        if ratTruthy base.rating then some ((base.rating.getD 0 + new.rating.getD 0) / 2)
        else new.rating
      else base.rating
    review_count :=
      if base.review_count < new.review_count then new.review_count else base.review_count
    hours := if new.hours.isSome ∧ ¬base.hours.isSome then new.hours else base.hours
    yelp_url := if strTruthy new.yelp_url then new.yelp_url else base.yelp_url
    yelp_id := if strTruthy new.yelp_id then new.yelp_id else base.yelp_id
    google_url := if strTruthy new.google_url then new.google_url else base.google_url
    google_place_id :=
      if strTruthy new.google_place_id then new.google_place_id else base.google_place_id
    features := if new.features = [] then base.features else pySetList (base.features ++ new.features)
    photos := if new.photos = [] then base.photos else pySetList (base.photos ++ new.photos)
    data_sources :=
      if new.data_sources = [] then base.data_sources
      else pySetList (base.data_sources ++ new.data_sources)
    reviews :=
      if new.reviews = [] then base.reviews
      else base.reviews ++ new.reviews.filter (fun r => decide (r.id ∉ base.reviews.map Review.id))
    last_updated := new.last_updated }

/-! ## Concrete records used by the counterexamples and witnesses -/

/-- A neutral record fixture; counterexamples override single fields. -/
def baseBusiness : Business :=
  { name := "Ace Diner", address := "99 Elm St", city := "Springfield", state := "IL",
    zip_code := "62704", country := "USA", phone := none, website := none, email := none,
    category := none, cuisine_type := none, price_level := none, latitude := none,
    longitude := none, rating := none, review_count := 0, reviews := [], hours := none,
    yelp_id := none, yelp_url := none, google_place_id := none, google_url := none,
    features := [], photos := [], data_sources := [], email_validated := false,
    is_duplicate := false, last_updated := 0 }

/-- An empty filter fixture; counterexamples override single criteria. -/
def baseFilter : SearchFilter :=
  { city := none, radius := none, cuisine_type := none, min_rating := none, max_rating := none,
    min_reviews := none, keywords := none, price_levels := [], features := [] }

/-- C1 fixture: a survivor. -/
def c1Primary : Business :=
  { baseBusiness with name := "Joes Pizza", address := "10 Main St", city := "Springfield" }

/-- C1 fixture: an exact-signature duplicate of `c1Primary` that carries a
phone number the survivor lacks. -/
def c1Dup : Business := { c1Primary with phone := some "(555) 123-4567" }

/-- C2 fixture: a survivor with rating `0.0` (present but Python-falsy). -/
def c2Primary : Business := { baseBusiness with rating := some 0, review_count := 10 }

/-- C2 fixture: a duplicate with a rating but FEWER reviews than the survivor. -/
def c2Dup : Business := { baseBusiness with rating := some 4, review_count := 5 }

/-- C4 fixture: a record whose rating is present and equal to `0.0`. -/
def c4Business : Business := { baseBusiness with rating := some 0 }

/-- C4 fixture: a filter demanding a minimum rating of 4. -/
def c4Filter : SearchFilter := { baseFilter with min_rating := some 4 }

/-- C5 fixture: a record whose name contains a removable character
between two spaces, so that one cleaning pass leaves a double space. -/
def c5Record : Business := { baseBusiness with name := "a @ b" }

/-- C5 fixture: the full pipeline with email validation enabled and no
filter; the external email validator is instantiated with the validator
that accepts every address unchanged (no fixture record has an email, so
its choice is immaterial). -/
def c5Pipeline (l : List Business) : List Business :=
  processBusinesses (fun e => some e) true none l

/-- C6 fixture: a review of the survivor. -/
def reviewA : Review :=
  { id := "rev1", author_name := "ann", rating := 5, text := "good", date := 10,
    platform := "yelp", helpful_votes := 0, sentiment_score := none, sentiment_label := none }

/-- C6 fixture: a review of the absorbed duplicate, with a fresh id. -/
def reviewB : Review :=
  { id := "rev2", author_name := "bob", rating := 4, text := "fine", date := 20,
    platform := "google", helpful_votes := 0, sentiment_score := none, sentiment_label := none }

/-- C6 fixture: a survivor holding `reviewA`. -/
def c6Primary : Business :=
  { baseBusiness with
    name := "Joes Pizza"
    address := "10 Main St"
    city := "Springfield"
    reviews := [reviewA] }

/-- C6 fixture: a similarity duplicate of `c6Primary` (name differs by one
letter, so the signatures differ and the pairwise predicate fires) holding
`reviewB`. -/
def c6Dup : Business := { c6Primary with name := "Joes Pizzah", reviews := [reviewB] }

/-- C9 fixture: a record with no category and no cuisine type. -/
def c9Business : Business := { baseBusiness with name := "Pizza" }

/-- C9 fixture: a filter whose free-text keyword is the word `none`. -/
def c9Filter : SearchFilter := { baseFilter with keywords := some "none" }

/-- C10 fixture: a base record with rating `0.0` (non-null, Python-falsy). -/
def c10Base : Business := { baseBusiness with rating := some 0 }

/-- C10 fixture: a new record with rating 4. -/
def c10New : Business := { baseBusiness with rating := some 4 }

/-! ## Deduplication invariants -/

/-- The three fields every deduplication decision (signature and
duplicate predicate) depends on; the merge never changes them. -/
def dupKey (b : Business) : String × String × String := (b.name, b.address, b.city)

/-- Separation of a later record `v` from an earlier survivor `u`: their
signatures differ and the duplicate predicate rejects the ordered pair
(the order the engine evaluates, candidate against survivor). -/
def sigDupFree (u v : Business) : Prop :=
  businessSignature v ≠ businessSignature u ∧ areDuplicates v u = false

/-! ## Helper lemmas: truthiness, list unions -/

theorem strTruthy_eq_true (o : Option String) :
    strTruthy o = true ↔ ∃ s, o = some s ∧ s ≠ "" := by
  cases o with
  | none => simp [strTruthy]
  | some s => by_cases h : s = "" <;> simp [strTruthy, h]

theorem strTruthy_eq_false (o : Option String) :
    strTruthy o = false ↔ o = none ∨ o = some "" := by
  cases o with
  | none => simp [strTruthy]
  | some s => by_cases h : s = "" <;> simp [strTruthy, h]

theorem ratTruthy_eq_true (o : Option ℚ) :
    ratTruthy o = true ↔ o ≠ none ∧ o ≠ some 0 := by
  cases o with
  | none => simp [ratTruthy]
  | some r => by_cases h : r = 0 <;> simp [ratTruthy, h]

theorem ratTruthy_eq_false (o : Option ℚ) :
    ratTruthy o = false ↔ o = none ∨ o = some 0 := by
  cases o with
  | none => simp [ratTruthy]
  | some r => by_cases h : r = 0 <;> simp [ratTruthy, h]

theorem intTruthy_eq_true (o : Option ℤ) :
    intTruthy o = true ↔ o ≠ none ∧ o ≠ some 0 := by
  cases o with
  | none => simp [intTruthy]
  | some n => by_cases h : n = 0 <;> simp [intTruthy, h]

theorem mem_unionAppend (base new : List String) (x : String) :
    x ∈ unionAppend base new ↔ x ∈ base ∨ x ∈ new := by
  induction new generalizing base with
  | nil => simp [unionAppend]
  | cons s tl ih =>
    unfold unionAppend at ih ⊢
    simp only [List.foldl_cons]
    by_cases h : s ∈ base
    · rw [if_pos h, ih]
      constructor
      · rintro (hx | hx)
        · exact Or.inl hx
        · exact Or.inr (List.mem_cons_of_mem _ hx)
      · rintro (hx | hx)
        · exact Or.inl hx
        · rcases List.mem_cons.1 hx with rfl | hx
          · exact Or.inl h
          · exact Or.inr hx
    · rw [if_neg h, ih]
      simp only [List.mem_append, List.mem_singleton, List.mem_cons]
      tauto

theorem unionAppend_toFinset (base new : List String) :
    (unionAppend base new).toFinset = base.toFinset ∪ new.toFinset := by
  ext x
  simp [List.mem_toFinset, mem_unionAppend]

theorem unionAppend_nodup (base new : List String) (h : base.Nodup) :
    (unionAppend base new).Nodup := by
  induction new generalizing base with
  | nil => exact h
  | cons s tl ih =>
    unfold unionAppend at ih ⊢
    simp only [List.foldl_cons]
    by_cases hs : s ∈ base
    · rw [if_pos hs]
      exact ih base h
    · rw [if_neg hs]
      refine ih (base ++ [s]) ?_
      simp [List.nodup_append, h, hs]

/-! ## C3: the duplicate predicate -/

/-- C3: for every pair of records, the duplicate predicate holds iff the
name similarity is at least `0.8`, the address similarity is at least
`0.7` whenever both addresses are non-empty, and the city similarity is
at least `0.8` whenever both cities are non-empty; a missing (empty)
field never disqualifies a pair. -/
theorem C3_duplicate_predicate (b1 b2 : Business) :
    areDuplicates b1 b2 = true ↔
      ((8 : ℚ) / 10 ≤ calculateSimilarity b1.name b2.name ∧
       (b1.address ≠ "" → b2.address ≠ "" →
         (7 : ℚ) / 10 ≤ calculateSimilarity b1.address b2.address) ∧
       (b1.city ≠ "" → b2.city ≠ "" →
         (8 : ℚ) / 10 ≤ calculateSimilarity b1.city b2.city)) := by
  unfold areDuplicates
  by_cases h1 : calculateSimilarity b1.name b2.name < (8 : ℚ) / 10
  · rw [if_pos h1]
    exact iff_of_false (by simp) (fun hc => absurd hc.1 (not_le.mpr h1))
  · rw [if_neg h1]
    by_cases h2 : b1.address ≠ "" ∧ b2.address ≠ "" ∧
        calculateSimilarity b1.address b2.address < (7 : ℚ) / 10
    · rw [if_pos h2]
      exact iff_of_false (by simp)
        (fun hc => absurd (hc.2.1 h2.1 h2.2.1) (not_le.mpr h2.2.2))
    · rw [if_neg h2]
      by_cases h3 : b1.city ≠ "" ∧ b2.city ≠ "" ∧
          calculateSimilarity b1.city b2.city < (8 : ℚ) / 10
      · rw [if_pos h3]
        exact iff_of_false (by simp)
          (fun hc => absurd (hc.2.2 h3.1 h3.2.1) (not_le.mpr h3.2.2))
      · rw [if_neg h3]
        refine iff_of_true rfl ⟨not_lt.mp h1, ?_, ?_⟩
        · intro ha hb
          by_contra hlt
          exact h2 ⟨ha, hb, not_le.mp (fun hle => hlt hle)⟩
        · intro ha hb
          by_contra hlt
          exact h3 ⟨ha, hb, not_le.mp (fun hle => hlt hle)⟩

/-! ## Counterexample theorems -/

/-- C1 counterexample: `c1Dup` has the same signature as `c1Primary`, is
identified as a duplicate by the fast path (dropped and flagged
`is_duplicate`), yet nothing is merged into the survivor: the survivor
keeps `phone = none` although the field-level merge policy would have
filled the gap with the duplicate's phone. -/
theorem C1_counterexample :
    removeDuplicates [c1Primary, c1Dup] = [c1Primary] ∧
    (removeDuplicatesFull [c1Primary, c1Dup]).dropped = [{ c1Dup with is_duplicate := true }] ∧
    c1Primary.phone = none ∧
    (mergeDuplicateData c1Primary c1Dup).phone = some "(555) 123-4567" := by
  decide

/-- C2 counterexample: the duplicate has a rating (`4.0`) and does NOT
have more reviews than the survivor, and the survivor's rating is present
(`0.0`, not `None`) — so the claim says the survivor's rating is kept —
yet the code adopts the duplicate's rating, because Python truthiness
treats the survivor's rating `0.0` as "no rating". -/
theorem C2_counterexample :
    (mergeDuplicateData c2Primary c2Dup).rating = some 4 ∧
    c2Primary.rating = some 0 ∧ c2Primary.rating ≠ none ∧
    c2Dup.rating = some 4 ∧ c2Dup.review_count ≤ c2Primary.review_count ∧
    (some (4 : ℚ)) ≠ some (0 : ℚ) := by
  decide

/-- C4 counterexample: a record whose rating is present (`0.0`) and below
the supplied `min_rating = 4` is NOT excluded — the claim says a record
with a present, below-minimum rating IS excluded. -/
theorem C4_counterexample :
    passesFilters c4Business c4Filter = true ∧
    c4Business.rating = some 0 ∧ c4Filter.min_rating = some 4 ∧ (0 : ℚ) < 4 := by
  decide

/-- C5 counterexample: the full pipeline is not idempotent.  Cleaning the
name `a @ b` removes the `@` and leaves the double space `a  b`; a second
pipeline run collapses it to `a b`, so the second output differs. -/
theorem C5_counterexample :
    c5Pipeline (c5Pipeline [c5Record]) ≠ c5Pipeline [c5Record] ∧
    cleanText "a @ b" = "a  b" ∧ cleanText (cleanText "a @ b") = "a b" := by
  decide

/-- C6 counterexample: the deduplication merge drops the absorbed
record's reviews silently: the duplicate's review `reviewB` has a fresh
id not present in the survivor, yet the merged survivor still carries
only `reviewA`. -/
theorem C6_counterexample :
    (mergeDuplicateData c6Primary c6Dup).reviews = [reviewA] ∧
    c6Dup.reviews = [reviewB] ∧
    reviewB.id ∉ c6Primary.reviews.map Review.id := by
  decide

/-- C7 counterexample: the similarity function is not symmetric:
`similarity("tide", "diet") = 1/4` but `similarity("diet", "tide") = 1/2`
(the greedy matching-block search is direction-dependent). -/
theorem C7_counterexample :
    calculateSimilarity "tide" "diet" = 1 / 4 ∧
    calculateSimilarity "diet" "tide" = 1 / 2 ∧
    calculateSimilarity "tide" "diet" ≠ calculateSimilarity "diet" "tide" := by
  have h1 : matchesTotF (List.map lowerChar "tide".data) (List.map lowerChar "diet".data)
      (List.map lowerChar "tide".data).length 0 (List.map lowerChar "tide".data).length 0
      (List.map lowerChar "diet".data).length = 1 := by decide
  have h2 : matchesTotF (List.map lowerChar "diet".data) (List.map lowerChar "tide".data)
      (List.map lowerChar "diet".data).length 0 (List.map lowerChar "diet".data).length 0
      (List.map lowerChar "tide".data).length = 2 := by decide
  have hl1 : (List.map lowerChar "tide".data).length = 4 := by decide
  have hl2 : (List.map lowerChar "diet".data).length = 4 := by decide
  have e1 : calculateSimilarity "tide" "diet" = 1 / 4 := by
    unfold calculateSimilarity ratioQ
    rw [if_neg (show ¬("tide" = "" ∨ "diet" = "") from by decide), h1, hl1, hl2]
    norm_num
  have e2 : calculateSimilarity "diet" "tide" = 1 / 2 := by
    unfold calculateSimilarity ratioQ
    rw [if_neg (show ¬("diet" = "" ∨ "tide" = "") from by decide), h2, hl1, hl2]
    norm_num
  refine ⟨e1, e2, ?_⟩
  rw [e1, e2]
  norm_num

/-- C8 counterexample: an input written with a `+1` prefix strips to
`+15551234567`, which contains exactly 11 digits the first of which is 1,
so the claim says it is formatted as `(555) 123-4567`; the code returns
it unformatted, because it tests `len` of the stripped value (12, the
`+` included) rather than the digit count. -/
theorem C8_counterexample :
    cleanPhoneNumber "+1 (555) 123-4567" = "+15551234567" ∧
    ((("+1 (555) 123-4567" : String).data.filter (fun c => c.isDigit || c = '+')).filter
      Char.isDigit).length = 11 ∧
    (("+1 (555) 123-4567" : String).data.filter (fun c => c.isDigit || c = '+')).filter
      Char.isDigit ≠ [] ∧
    ((("+1 (555) 123-4567" : String).data.filter (fun c => c.isDigit || c = '+')).filter
      Char.isDigit).headD ' ' = '1' ∧
    cleanPhoneNumber "+1 (555) 123-4567" ≠ "(555) 123-4567" := by
  decide

/-- C9 counterexample: a record with no category and no cuisine type
passes the keyword filter `"none"`, although `none` occurs nowhere in the
record's name (nor in the claim's searchable text built from present
fields only): the f-string renders the absent fields as the literal text
`None`. -/
theorem C9_counterexample :
    passesFilters c9Business c9Filter = true ∧
    c9Business.category = none ∧ c9Business.cuisine_type = none ∧
    isSubstr (lowerStr "none").data (lowerStr (c9Business.name ++ " " ++ "" ++ " " ++ "")).data
      = false ∧
    isSubstr (lowerStr "none").data (lowerStr c9Business.name).data = false := by
  decide

/-- C10 counterexample: both records carry a non-null rating (`0.0` and
`4.0`), so the claim says the merged rating is their mean `2.0`; the code
adopts `4.0` instead, because the base's rating `0.0` is Python-falsy. -/
theorem C10_counterexample :
    (mergeBusinessData c10Base c10New).rating = some 4 ∧
    c10Base.rating = some 0 ∧ c10New.rating = some 4 ∧
    (4 : ℚ) ≠ (0 + 4) / 2 := by
  refine ⟨by decide, by decide, by decide, by norm_num⟩

/-! ## C2, C6, C8, C10: merge and cleaning characterizations -/

/-- C2 (amended): in the deduplication merge, phone/website/email keep
the survivor's value unless the survivor's is empty (`None` or `""`) and
the duplicate's is non-empty; `data_sources` is, as a set, the union of
both records' sources (and stays duplicate-free when the survivor's list
was); the duplicate's rating is adopted exactly when the duplicate's
rating is present AND NON-ZERO and either the survivor's rating is absent
OR ZERO or the duplicate's review count exceeds the survivor's (Python
truthiness treats a `0.0` rating as absent); the resulting review count
is the maximum of the two. -/
theorem C2_merge_policy (p d : Business) :
    ((mergeDuplicateData p d).phone =
      if (p.phone = none ∨ p.phone = some "") ∧ (∃ s, d.phone = some s ∧ s ≠ "")
      then d.phone else p.phone) ∧
    ((mergeDuplicateData p d).website =
      if (p.website = none ∨ p.website = some "") ∧ (∃ s, d.website = some s ∧ s ≠ "")
      then d.website else p.website) ∧
    ((mergeDuplicateData p d).email =
      if (p.email = none ∨ p.email = some "") ∧ (∃ s, d.email = some s ∧ s ≠ "")
      then d.email else p.email) ∧
    ((mergeDuplicateData p d).data_sources.toFinset =
      p.data_sources.toFinset ∪ d.data_sources.toFinset) ∧
    (p.data_sources.Nodup → (mergeDuplicateData p d).data_sources.Nodup) ∧
    ((mergeDuplicateData p d).rating =
      if (d.rating ≠ none ∧ d.rating ≠ some 0) ∧
         (p.rating = none ∨ p.rating = some 0 ∨ p.review_count < d.review_count)
      then d.rating else p.rating) ∧
    ((mergeDuplicateData p d).review_count = max p.review_count d.review_count) := by
  refine ⟨?_, ?_, ?_, ?_, ?_, ?_, ?_⟩
  · have h : (mergeDuplicateData p d).phone =
        if ¬strTruthy p.phone ∧ strTruthy d.phone then d.phone else p.phone := rfl
    rw [h]
    exact if_congr
      (and_congr (by rw [Bool.not_eq_true, strTruthy_eq_false]) (strTruthy_eq_true _)) rfl rfl
  · have h : (mergeDuplicateData p d).website =
        if ¬strTruthy p.website ∧ strTruthy d.website then d.website else p.website := rfl
    rw [h]
    exact if_congr
      (and_congr (by rw [Bool.not_eq_true, strTruthy_eq_false]) (strTruthy_eq_true _)) rfl rfl
  · have h : (mergeDuplicateData p d).email =
        if ¬strTruthy p.email ∧ strTruthy d.email then d.email else p.email := rfl
    rw [h]
    exact if_congr
      (and_congr (by rw [Bool.not_eq_true, strTruthy_eq_false]) (strTruthy_eq_true _)) rfl rfl
  · have h : (mergeDuplicateData p d).data_sources =
        unionAppend p.data_sources d.data_sources := rfl
    rw [h]
    exact unionAppend_toFinset _ _
  · intro hnd
    have h : (mergeDuplicateData p d).data_sources =
        unionAppend p.data_sources d.data_sources := rfl
    rw [h]
    exact unionAppend_nodup _ _ hnd
  · have h : (mergeDuplicateData p d).rating =
        if ratTruthy d.rating ∧ (¬ratTruthy p.rating ∨ p.review_count < d.review_count)
        then d.rating else p.rating := rfl
    rw [h]
    refine if_congr ?_ rfl rfl
    rw [ratTruthy_eq_true, Bool.not_eq_true, ratTruthy_eq_false]
    tauto
  · have h : (mergeDuplicateData p d).review_count =
        if p.review_count < d.review_count then d.review_count else p.review_count := rfl
    rw [h]
    rcases lt_or_le p.review_count d.review_count with hlt | hle
    · rw [if_pos hlt, max_eq_right hlt.le]
    · rw [if_neg (not_lt.mpr hle), max_eq_left hle]

/-- C6 (amended): the deduplication merge leaves the survivor's reviews
unchanged — the absorbed record's reviews are discarded entirely; the
id-keyed review union (append the new record's reviews whose id is not
already present, drop same-id ones silently) is performed only by the
cross-source merge of the scraper manager. -/
theorem C6_review_merge (p d : Business) :
    (mergeDuplicateData p d).reviews = p.reviews ∧
    (mergeBusinessData p d).reviews =
      p.reviews ++ d.reviews.filter (fun r => decide (r.id ∉ p.reviews.map Review.id)) := by
  refine ⟨rfl, ?_⟩
  have h : (mergeBusinessData p d).reviews =
      if d.reviews = [] then p.reviews
      else p.reviews ++ d.reviews.filter (fun r => decide (r.id ∉ p.reviews.map Review.id)) := rfl
  rw [h]
  by_cases hd : d.reviews = []
  · rw [if_pos hd, hd]
    simp
  · rw [if_neg hd]

/-- C10 (amended): in the cross-source merge, when both records carry a
present, NON-ZERO rating the merged rating is the arithmetic mean of the
two; when only the new record has a present non-zero rating it is
adopted; otherwise (including a new rating of exactly `0.0`, which Python
truthiness treats as absent) the base's rating is kept. -/
theorem C10_crossmerge_rating (b n : Business) :
    (mergeBusinessData b n).rating =
      if n.rating ≠ none ∧ n.rating ≠ some 0 then
        if b.rating ≠ none ∧ b.rating ≠ some 0 then
          some ((b.rating.getD 0 + n.rating.getD 0) / 2)
        else n.rating
      else b.rating := by
  have h : (mergeBusinessData b n).rating =
      if ratTruthy n.rating then
        if ratTruthy b.rating then some ((b.rating.getD 0 + n.rating.getD 0) / 2) else n.rating
      else b.rating := rfl
  rw [h]
  exact if_congr (ratTruthy_eq_true _) (if_congr (ratTruthy_eq_true _) rfl rfl) rfl

/-- C8 (amended): phone cleaning keeps exactly the digits and `+` signs;
the formatting rule is keyed on the LENGTH of the stripped value (in
which a retained `+` counts) and on its first CHARACTER: length exactly
10 formats as `(AAA) BBB-CCCC`, length exactly 11 with first character
`1` drops it and formats the rest, anything else is returned stripped but
unformatted.  For inputs whose stripped value contains no `+`, the length
is the digit count, recovering the claim's digit-count rule. -/
theorem C8_phone_cleaning (s : String) :
    (∀ c ∈ s.data.filter (fun c => c.isDigit || c = '+'), c.isDigit = true ∨ c = '+') ∧
    ((s.data.filter (fun c => c.isDigit || c = '+')).length = 10 →
      cleanPhoneNumber s = ⟨formatPhone10 (s.data.filter (fun c => c.isDigit || c = '+'))⟩) ∧
    ((s.data.filter (fun c => c.isDigit || c = '+')).length = 11 →
      (s.data.filter (fun c => c.isDigit || c = '+')).headD ' ' = '1' →
      cleanPhoneNumber s =
        ⟨formatPhone10 ((s.data.filter (fun c => c.isDigit || c = '+')).drop 1)⟩) ∧
    ((s.data.filter (fun c => c.isDigit || c = '+')).length ≠ 10 →
      ¬((s.data.filter (fun c => c.isDigit || c = '+')).length = 11 ∧
        (s.data.filter (fun c => c.isDigit || c = '+')).headD ' ' = '1') →
      cleanPhoneNumber s = ⟨s.data.filter (fun c => c.isDigit || c = '+')⟩) ∧
    ('+' ∉ s.data.filter (fun c => c.isDigit || c = '+') →
      (s.data.filter (fun c => c.isDigit || c = '+')).filter Char.isDigit =
        s.data.filter (fun c => c.isDigit || c = '+')) := by
  refine ⟨?_, ?_, ?_, ?_, ?_⟩
  · intro c hc
    have hmem := (List.mem_filter.1 hc).2
    simp only [Bool.or_eq_true, decide_eq_true_eq] at hmem
    exact hmem
  · intro h10
    unfold cleanPhoneNumber
    rw [if_pos h10]
  · intro h11 hhead
    unfold cleanPhoneNumber
    rw [if_neg (by rw [h11]; decide), if_pos ⟨h11, hhead⟩]
  · intro hn10 hn11
    unfold cleanPhoneNumber
    rw [if_neg hn10, if_neg hn11]
  · intro hplus
    refine List.filter_eq_self.mpr ?_
    intro a ha
    have hmem := (List.mem_filter.1 ha).2
    simp only [Bool.or_eq_true, decide_eq_true_eq] at hmem
    rcases hmem with hd | heq
    · exact hd
    · exact absurd (heq ▸ ha) hplus

/-! ## C4, C9: filter semantics -/

theorem guard_bool_iff (c x : Bool) : (if c then x else true) = true ↔ (c = true → x = true) := by
  cases c <;> simp

theorem ratingMinOk_iff (b : Business) (f : SearchFilter) :
    ratingMinOk b f = true ↔
      ((f.min_rating ≠ none ∧ f.min_rating ≠ some 0) ∧ (b.rating ≠ none ∧ b.rating ≠ some 0) →
        f.min_rating.getD 0 ≤ b.rating.getD 0) := by
  unfold ratingMinOk
  rw [guard_bool_iff, Bool.and_eq_true, ratTruthy_eq_true, ratTruthy_eq_true,
    decide_eq_true_eq]

theorem ratingMaxOk_iff (b : Business) (f : SearchFilter) :
    ratingMaxOk b f = true ↔
      ((f.max_rating ≠ none ∧ f.max_rating ≠ some 0) ∧ (b.rating ≠ none ∧ b.rating ≠ some 0) →
        b.rating.getD 0 ≤ f.max_rating.getD 0) := by
  unfold ratingMaxOk
  rw [guard_bool_iff, Bool.and_eq_true, ratTruthy_eq_true, ratTruthy_eq_true,
    decide_eq_true_eq]

theorem reviewsOk_iff (b : Business) (f : SearchFilter) :
    reviewsOk b f = true ↔
      (f.min_reviews ≠ none ∧ f.min_reviews ≠ some 0 →
        f.min_reviews.getD 0 ≤ b.review_count) := by
  unfold reviewsOk
  rw [guard_bool_iff, intTruthy_eq_true, decide_eq_true_eq]

theorem cuisineOk_iff (b : Business) (f : SearchFilter) :
    cuisineOk b f = true ↔
      (strTruthy f.cuisine_type = true →
        strTruthy b.cuisine_type = true ∧
        isSubstr (lowerStr (f.cuisine_type.getD "")).data
          (lowerStr (b.cuisine_type.getD "")).data = true) := by
  unfold cuisineOk
  rw [guard_bool_iff]
  simp only [Bool.and_eq_true]

theorem keywordsOk_iff (b : Business) (f : SearchFilter) :
    keywordsOk b f = true ↔
      (strTruthy f.keywords = true →
        isSubstr (lowerStr (f.keywords.getD "")).data (searchableText b).data = true) := by
  unfold keywordsOk
  rw [guard_bool_iff]

theorem priceOk_iff (b : Business) (f : SearchFilter) :
    priceOk b f = true ↔
      (f.price_levels ≠ [] → ∃ p, b.price_level = some p ∧ p ∈ f.price_levels) := by
  unfold priceOk
  by_cases he : f.price_levels = []
  · rw [if_pos he]
    simp [he]
  · rw [if_neg he]
    cases hp : b.price_level with
    | none =>
      refine iff_of_false (by simp) (fun hc => ?_)
      rcases hc he with ⟨p, hp2, _⟩
      exact Option.noConfusion hp2
    | some p =>
      simp [he, decide_eq_true_eq]
  
theorem featuresOk_iff (b : Business) (f : SearchFilter) :
    featuresOk b f = true ↔
      (f.features ≠ [] → ∀ rf ∈ f.features, lowerStr rf ∈ b.features.map lowerStr) := by
  unfold featuresOk
  by_cases he : f.features = []
  · rw [if_pos he]
    simp [he]
  · rw [if_neg he]
    rw [List.all_eq_true]
    simp [he, decide_eq_true_eq]

/-- C4 (amended): the `min_rating`/`max_rating` criteria exclude a
record only when the criterion AND the record's rating are both
Python-truthy (non-`None` and non-zero) and the bound is violated — a
record with `rating = None` OR `rating = 0.0` passes any supplied
`min_rating`, and a rating criterion supplied as `0` is disabled.  The
min-review-count criterion, when supplied as a non-zero value, excludes
any record whose (always-present) `review_count` is below it, including
`review_count = 0` — there is no truthiness guard on the record side.
The cuisine, price-level and features criteria, when supplied, exclude
any record lacking a matching value. -/
theorem C4_filter_semantics (b : Business) (f : SearchFilter) :
    passesFilters b f = true ↔
      (((f.min_rating ≠ none ∧ f.min_rating ≠ some 0) ∧ (b.rating ≠ none ∧ b.rating ≠ some 0) →
          f.min_rating.getD 0 ≤ b.rating.getD 0) ∧
       ((f.max_rating ≠ none ∧ f.max_rating ≠ some 0) ∧ (b.rating ≠ none ∧ b.rating ≠ some 0) →
          b.rating.getD 0 ≤ f.max_rating.getD 0) ∧
       (f.min_reviews ≠ none ∧ f.min_reviews ≠ some 0 →
          f.min_reviews.getD 0 ≤ b.review_count) ∧
       (strTruthy f.cuisine_type = true →
          strTruthy b.cuisine_type = true ∧
          isSubstr (lowerStr (f.cuisine_type.getD "")).data
            (lowerStr (b.cuisine_type.getD "")).data = true) ∧
       (strTruthy f.keywords = true →
          isSubstr (lowerStr (f.keywords.getD "")).data (searchableText b).data = true) ∧
       (f.price_levels ≠ [] → ∃ p, b.price_level = some p ∧ p ∈ f.price_levels) ∧
       (f.features ≠ [] → ∀ rf ∈ f.features, lowerStr rf ∈ b.features.map lowerStr)) := by
  unfold passesFilters
  simp only [Bool.and_eq_true]
  rw [ratingMinOk_iff, ratingMaxOk_iff, reviewsOk_iff, cuisineOk_iff, keywordsOk_iff,
    priceOk_iff, featuresOk_iff]
  tauto

theorem bool_reorder (x1 x2 x3 x4 k x5 x6 : Bool) :
    (x1 && x2 && x3 && x4 && k && x5 && x6) =
      ((x1 && x2 && x3 && x4 && true && x5 && x6) && k) := by
  cases x1 <;> cases x2 <;> cases x3 <;> cases x4 <;> cases k <;> cases x5 <;> cases x6 <;> rfl

/-- C9 (amended): with a keywords criterion supplied, the filter is the
conjunction of the remaining criteria with a case-insensitive substring
test of the keywords against the searchable text — which is the
space-joined rendering of name, category and cuisine type in which an
ABSENT category or cuisine type contributes the literal text `None`
(Python f-string rendering), not nothing. -/
theorem C9_keywords_semantics :
    (∀ (b : Business) (f : SearchFilter), strTruthy f.keywords = true →
      passesFilters b f =
        (passesFilters b { f with keywords := none } &&
          isSubstr (lowerStr (f.keywords.getD "")).data (searchableText b).data)) ∧
    (∀ b : Business, searchableText b =
      lowerStr (b.name ++ " " ++ pyStrOpt b.category ++ " " ++ pyStrOpt b.cuisine_type)) := by
  constructor
  · intro b f hkw
    have hno : passesFilters b { f with keywords := none } =
        (ratingMinOk b f && ratingMaxOk b f && reviewsOk b f && cuisineOk b f && true &&
          priceOk b f && featuresOk b f) := rfl
    have hkwOk : keywordsOk b f =
        isSubstr (lowerStr (f.keywords.getD "")).data (searchableText b).data := by
      unfold keywordsOk
      rw [if_pos hkw]
    calc passesFilters b f
        = (ratingMinOk b f && ratingMaxOk b f && reviewsOk b f && cuisineOk b f &&
            keywordsOk b f && priceOk b f && featuresOk b f) := rfl
      _ = ((ratingMinOk b f && ratingMaxOk b f && reviewsOk b f && cuisineOk b f && true &&
            priceOk b f && featuresOk b f) && keywordsOk b f) :=
          bool_reorder _ _ _ _ _ _ _
      _ = (passesFilters b { f with keywords := none } &&
            isSubstr (lowerStr (f.keywords.getD "")).data (searchableText b).data) := by
          rw [hno, hkwOk]
  · intro b
    rfl

/-! ## C1: the two deduplication paths -/

theorem dedupStep_seen_uniques (s1 s2 : DedupState) (b : Business)
    (hs : s1.seen = s2.seen) (hu : s1.uniques = s2.uniques) :
    (dedupStep s1 b).seen = (dedupStep s2 b).seen ∧
    (dedupStep s1 b).uniques = (dedupStep s2 b).uniques := by
  unfold dedupStep
  rw [hs, hu]
  by_cases h : businessSignature b ∈ s2.seen
  · rw [if_pos h, if_pos h]
    exact ⟨rfl, rfl⟩
  · rw [if_neg h, if_neg h]
    cases hm : mergeIntoMatch b s2.uniques with
    | some us => exact ⟨rfl, rfl⟩
    | none => exact ⟨rfl, rfl⟩

theorem foldl_dedup_seen_uniques (l : List Business) :
    ∀ (s1 s2 : DedupState), s1.seen = s2.seen → s1.uniques = s2.uniques →
    (List.foldl dedupStep s1 l).seen = (List.foldl dedupStep s2 l).seen ∧
    (List.foldl dedupStep s1 l).uniques = (List.foldl dedupStep s2 l).uniques := by
  induction l with
  | nil => intro s1 s2 hs hu; exact ⟨hs, hu⟩
  | cons b tl ih =>
    intro s1 s2 hs hu
    simp only [List.foldl_cons]
    obtain ⟨h1, h2⟩ := dedupStep_seen_uniques s1 s2 b hs hu
    exact ih _ _ h1 h2

theorem foldl_dedup_dropped_flag (l : List Business) :
    ∀ (st : DedupState), (∀ x ∈ st.dropped, x.is_duplicate = true) →
    ∀ x ∈ (List.foldl dedupStep st l).dropped, x.is_duplicate = true := by
  induction l with
  | nil => intro st h; exact h
  | cons b tl ih =>
    intro st h
    simp only [List.foldl_cons]
    refine ih _ ?_
    unfold dedupStep
    by_cases h1 : businessSignature b ∈ st.seen
    · rw [if_pos h1]
      intro x hx
      rcases List.mem_append.1 hx with hx | hx
      · exact h x hx
      · rcases List.mem_singleton.1 hx with rfl
        rfl
    · rw [if_neg h1]
      cases hm : mergeIntoMatch b st.uniques with
      | some us =>
        intro x hx
        rcases List.mem_append.1 hx with hx | hx
        · exact h x hx
        · rcases List.mem_singleton.1 hx with rfl
          rfl
      | none => exact h

theorem dedupStep_sig_hit (st : DedupState) (b : Business)
    (h : businessSignature b ∈ st.seen) :
    (dedupStep st b).seen = st.seen ∧ (dedupStep st b).uniques = st.uniques := by
  unfold dedupStep
  rw [if_pos h]
  exact ⟨rfl, rfl⟩

theorem dedupStep_merge_hit (st : DedupState) (b : Business) (us : List Business)
    (h1 : businessSignature b ∉ st.seen) (h2 : mergeIntoMatch b st.uniques = some us) :
    (dedupStep st b).uniques = us := by
  unfold dedupStep
  rw [if_neg h1, h2]

/-- C1 (amended): every record the deduplication engine drops is flagged
`is_duplicate`; a candidate matched by the pairwise similarity predicate
is merged (by the field-level merge policy) into the first matching
survivor before being dropped; but a record detected via the
exact-signature fast path is dropped WITHOUT any merge — the survivors
are exactly those of the input with that record deleted. -/
theorem C1_dedup_paths :
    (∀ (l : List Business), ∀ x ∈ (removeDuplicatesFull l).dropped, x.is_duplicate = true) ∧
    (∀ (l1 l2 : List Business) (b : Business),
      businessSignature b ∈ (removeDuplicatesFull l1).seen →
      removeDuplicates (l1 ++ b :: l2) = removeDuplicates (l1 ++ l2)) ∧
    (∀ (l : List Business) (b : Business) (us : List Business),
      businessSignature b ∉ (removeDuplicatesFull l).seen →
      mergeIntoMatch b (removeDuplicatesFull l).uniques = some us →
      removeDuplicates (l ++ [b]) = us) := by
  refine ⟨?_, ?_, ?_⟩
  · intro l
    exact foldl_dedup_dropped_flag l ⟨[], [], []⟩ (fun x hx => absurd hx (List.not_mem_nil x))
  · intro l1 l2 b hsig
    unfold removeDuplicates removeDuplicatesFull at *
    rw [List.foldl_append, List.foldl_append]
    simp only [List.foldl_cons]
    exact (foldl_dedup_seen_uniques l2 _ _ (dedupStep_sig_hit _ b hsig).1
      (dedupStep_sig_hit _ b hsig).2).2
  · intro l b us hsig hm
    unfold removeDuplicates removeDuplicatesFull at *
    rw [List.foldl_append]
    simp only [List.foldl_cons, List.foldl_nil]
    exact dedupStep_merge_hit _ b us hsig hm

/-! ## C5: deduplication is idempotent -/

theorem businessSignature_congr (b1 b2 : Business) (h : dupKey b1 = dupKey b2) :
    businessSignature b1 = businessSignature b2 := by
  have h1 : b1.name = b2.name := congrArg Prod.fst h
  have h2 : b1.address = b2.address := congrArg (fun k => k.2.1) h
  have h3 : b1.city = b2.city := congrArg (fun k => k.2.2) h
  unfold businessSignature
  rw [h1, h2, h3]

theorem areDuplicates_congr (a1 a2 b1 b2 : Business) (ha : dupKey a1 = dupKey a2)
    (hb : dupKey b1 = dupKey b2) : areDuplicates a1 b1 = areDuplicates a2 b2 := by
  have ha1 : a1.name = a2.name := congrArg Prod.fst ha
  have ha2 : a1.address = a2.address := congrArg (fun k => k.2.1) ha
  have ha3 : a1.city = a2.city := congrArg (fun k => k.2.2) ha
  have hb1 : b1.name = b2.name := congrArg Prod.fst hb
  have hb2 : b1.address = b2.address := congrArg (fun k => k.2.1) hb
  have hb3 : b1.city = b2.city := congrArg (fun k => k.2.2) hb
  unfold areDuplicates
  rw [ha1, ha2, ha3, hb1, hb2, hb3]

theorem sigDupFree_congr (u1 u2 v1 v2 : Business) (hu : dupKey u1 = dupKey u2)
    (hv : dupKey v1 = dupKey v2) : sigDupFree u1 v1 ↔ sigDupFree u2 v2 := by
  unfold sigDupFree
  rw [businessSignature_congr _ _ hu, businessSignature_congr _ _ hv,
    areDuplicates_congr _ _ _ _ hv hu]

theorem mergeDuplicateData_dupKey (u b : Business) :
    dupKey (mergeDuplicateData u b) = dupKey u := rfl

theorem mergeIntoMatch_some_keys (b : Business) : ∀ (us us2 : List Business),
    mergeIntoMatch b us = some us2 → us2.map dupKey = us.map dupKey := by
  intro us
  induction us with
  | nil => intro us2 h; exact absurd h (by simp [mergeIntoMatch])
  | cons u rest ih =>
    intro us2 h
    unfold mergeIntoMatch at h
    by_cases hd : areDuplicates b u = true
    · rw [if_pos hd] at h
      cases h
      simp [List.map_cons, mergeDuplicateData_dupKey]
    · rw [if_neg hd] at h
      cases hm : mergeIntoMatch b rest with
      | some rest2 =>
        rw [hm] at h
        cases h
        simp only [List.map_cons]
        rw [ih rest2 hm]
      | none =>
        rw [hm] at h
        cases h

theorem mergeIntoMatch_none_iff (b : Business) : ∀ us : List Business,
    mergeIntoMatch b us = none ↔ ∀ u ∈ us, areDuplicates b u = false := by
  intro us
  induction us with
  | nil => simp [mergeIntoMatch]
  | cons u rest ih =>
    unfold mergeIntoMatch
    by_cases hd : areDuplicates b u = true
    · rw [if_pos hd]
      refine iff_of_false (by simp) (fun hall => ?_)
      have := hall u (List.mem_cons_self u rest)
      rw [hd] at this
      cases this
    · rw [if_neg hd]
      have hbu : areDuplicates b u = false := by
        rw [← Bool.not_eq_true]
        exact hd
      cases hm : mergeIntoMatch b rest with
      | some rest2 =>
        refine iff_of_false (by simp) (fun hall => ?_)
        have : mergeIntoMatch b rest = none :=
          ih.mpr (fun x hx => hall x (List.mem_cons_of_mem u hx))
        rw [hm] at this
        cases this
      | none =>
        refine iff_of_true rfl ?_
        intro x hx
        rcases List.mem_cons.1 hx with rfl | hx
        · exact hbu
        · exact ih.mp hm x hx

theorem map_sig_eq_of_map_key_eq : ∀ (l1 l2 : List Business),
    l1.map dupKey = l2.map dupKey →
    l1.map businessSignature = l2.map businessSignature := by
  intro l1
  induction l1 with
  | nil =>
    intro l2 h
    cases l2 with
    | nil => rfl
    | cons a2 t2 => simp at h
  | cons a t ih =>
    intro l2 h
    cases l2 with
    | nil => simp at h
    | cons a2 t2 =>
      simp only [List.map_cons, List.cons.injEq] at h ⊢
      exact ⟨businessSignature_congr _ _ h.1, ih t2 h.2⟩

theorem pairwise_of_map_key_eq : ∀ (l1 l2 : List Business),
    l1.map dupKey = l2.map dupKey → l1.Pairwise sigDupFree → l2.Pairwise sigDupFree := by
  intro l1
  induction l1 with
  | nil =>
    intro l2 h _
    cases l2 with
    | nil => exact List.Pairwise.nil
    | cons a2 t2 => simp at h
  | cons a t ih =>
    intro l2 h hp
    cases l2 with
    | nil => simp at h
    | cons a2 t2 =>
      simp only [List.map_cons, List.cons.injEq] at h
      rw [List.pairwise_cons] at hp ⊢
      refine ⟨?_, ih t2 h.2 hp.2⟩
      intro x2 hx2
      have hmem : dupKey x2 ∈ t.map dupKey := by
        rw [h.2]
        exact List.mem_map_of_mem dupKey hx2
      rcases List.mem_map.1 hmem with ⟨x, hxmem, hxkey⟩
      exact (sigDupFree_congr a a2 x x2 h.1 hxkey).mp (hp.1 x hxmem)

theorem dedupStep_invariant (st : DedupState) (b : Business)
    (hs : st.seen = st.uniques.map businessSignature)
    (hp : st.uniques.Pairwise sigDupFree) :
    (dedupStep st b).seen = (dedupStep st b).uniques.map businessSignature ∧
    (dedupStep st b).uniques.Pairwise sigDupFree := by
  unfold dedupStep
  by_cases h : businessSignature b ∈ st.seen
  · rw [if_pos h]
    exact ⟨hs, hp⟩
  · rw [if_neg h]
    cases hm : mergeIntoMatch b st.uniques with
    | some us =>
      have hkeys := mergeIntoMatch_some_keys b st.uniques us hm
      constructor
      · show st.seen = us.map businessSignature
        rw [hs, map_sig_eq_of_map_key_eq us st.uniques hkeys]
      · exact pairwise_of_map_key_eq st.uniques us hkeys.symm hp
    | none =>
      constructor
      · show st.seen ++ [businessSignature b] = (st.uniques ++ [b]).map businessSignature
        rw [List.map_append, hs]
        rfl
      · show (st.uniques ++ [b]).Pairwise sigDupFree
        rw [List.pairwise_append]
        refine ⟨hp, List.pairwise_singleton _ _, ?_⟩
        intro u hu v hv
        have hv2 : v = b := List.mem_singleton.1 hv
        rw [hv2]
        constructor
        · intro heq
          apply h
          rw [hs, heq]
          exact List.mem_map_of_mem businessSignature hu
        · exact (mergeIntoMatch_none_iff b st.uniques).mp hm u hu

theorem foldl_dedup_invariant (l : List Business) : ∀ (st : DedupState),
    st.seen = st.uniques.map businessSignature → st.uniques.Pairwise sigDupFree →
    (List.foldl dedupStep st l).seen =
      (List.foldl dedupStep st l).uniques.map businessSignature ∧
    (List.foldl dedupStep st l).uniques.Pairwise sigDupFree := by
  induction l with
  | nil => intro st hs hp; exact ⟨hs, hp⟩
  | cons b tl ih =>
    intro st hs hp
    simp only [List.foldl_cons]
    obtain ⟨h1, h2⟩ := dedupStep_invariant st b hs hp
    exact ih _ h1 h2

theorem removeDuplicates_invariant (l : List Business) :
    (removeDuplicatesFull l).seen = (removeDuplicates l).map businessSignature ∧
    (removeDuplicates l).Pairwise sigDupFree := by
  unfold removeDuplicates removeDuplicatesFull
  exact foldl_dedup_invariant l ⟨[], [], []⟩ rfl List.Pairwise.nil

theorem foldl_dedup_of_pairwise (l : List Business) : ∀ (st : DedupState),
    st.seen = st.uniques.map businessSignature →
    (st.uniques ++ l).Pairwise sigDupFree →
    List.foldl dedupStep st l =
      ⟨(st.uniques ++ l).map businessSignature, st.uniques ++ l, st.dropped⟩ := by
  induction l with
  | nil =>
    intro st hs hp
    simp only [List.foldl_nil, List.append_nil]
    cases st with
    | mk seen uniques dropped => rw [show seen = uniques.map businessSignature from hs]
  | cons b tl ih =>
    intro st hs hp
    have hfree : ∀ u ∈ st.uniques, sigDupFree u b := by
      intro u hu
      rw [List.pairwise_append] at hp
      exact hp.2.2 u hu b (List.mem_cons_self b tl)
    have hsig : businessSignature b ∉ st.seen := by
      rw [hs]
      intro hmem
      rcases List.mem_map.1 hmem with ⟨u, hu, hequ⟩
      exact (hfree u hu).1 hequ.symm
    have hnone : mergeIntoMatch b st.uniques = none :=
      (mergeIntoMatch_none_iff b st.uniques).mpr (fun u hu => (hfree u hu).2)
    have hstep : dedupStep st b =
        ⟨st.seen ++ [businessSignature b], st.uniques ++ [b], st.dropped⟩ := by
      unfold dedupStep
      rw [if_neg hsig, hnone]
    simp only [List.foldl_cons]
    rw [hstep]
    have hres := ih ⟨st.seen ++ [businessSignature b], st.uniques ++ [b], st.dropped⟩
      (by rw [List.map_append, hs]; rfl)
      (by rw [List.append_assoc]; exact hp)
    rw [hres, List.append_assoc]
    rfl

/-- C5 (amended): deduplication is idempotent — the survivor list is
pairwise separated (no two survivors share a signature, and no later
survivor is a similarity duplicate of an earlier one), so running
`remove_duplicates` on its own output returns it unchanged.  (The full
pipeline, by contrast, is not idempotent: see the counterexample, where
text cleaning is not a fixed point on already-cleaned values.) -/
theorem C5_dedupe_idempotent (l : List Business) :
    (removeDuplicates l).Pairwise sigDupFree ∧
    removeDuplicates (removeDuplicates l) = removeDuplicates l := by
  refine ⟨(removeDuplicates_invariant l).2, ?_⟩
  have hres := foldl_dedup_of_pairwise (removeDuplicates l) ⟨[], [], []⟩ rfl
    (by rw [List.nil_append]; exact (removeDuplicates_invariant l).2)
  show (removeDuplicatesFull (removeDuplicates l)).uniques = removeDuplicates l
  unfold removeDuplicatesFull
  rw [hres]
  rfl

/-! ## C7: similarity is in [0,1], case-insensitive, zero on empty -/

theorem extFwd_le (a b : List Char) : ∀ (n i j : ℕ), extFwd a b i j n ≤ n := by
  intro n
  induction n with
  | zero => intro i j; exact Nat.le_refl 0
  | succ m ih =>
    intro i j
    unfold extFwd
    by_cases h : a.getD i ' ' = b.getD j ' '
    · rw [if_pos h]
      exact Nat.succ_le_succ (ih (i + 1) (j + 1))
    · rw [if_neg h]
      exact Nat.zero_le _

theorem extBack_le (a b : List Char) : ∀ (n i j : ℕ), extBack a b i j n ≤ n := by
  intro n
  induction n with
  | zero => intro i j; exact Nat.le_refl 0
  | succ m ih =>
    intro i j
    unfold extBack
    by_cases h : a.getD (i - 1) ' ' = b.getD (j - 1) ' '
    · rw [if_pos h]
      exact Nat.succ_le_succ (ih (i - 1) (j - 1))
    · rw [if_neg h]
      exact Nat.zero_le _

theorem lookupLen_cases (m : List (ℕ × ℕ)) (j : ℕ) :
    lookupLen m j = 0 ∨ ∃ p ∈ m, p.1 = j ∧ p.2 = lookupLen m j := by
  unfold lookupLen
  cases hf : m.find? (fun p => decide (p.1 = j)) with
  | none => exact Or.inl rfl
  | some p =>
    refine Or.inr ⟨p, List.mem_of_find?_eq_some hf, ?_, rfl⟩
    have := List.find?_some hf
    simpa using this

theorem mem_takeWhile_pred (p : ℕ → Bool) : ∀ (l : List ℕ) (x : ℕ),
    x ∈ l.takeWhile p → p x = true := by
  intro l
  induction l with
  | nil => intro x hx; cases hx
  | cons y t ih =>
    intro x hx
    rw [List.takeWhile_cons] at hx
    by_cases hy : p y = true
    · rw [if_pos hy] at hx
      rcases List.mem_cons.1 hx with rfl | hx
      · exact hy
      · exact ih x hx
    · rw [if_neg hy] at hx
      cases hx

theorem flmInner_inv (alo ahi blo bhi i : ℕ) (old : List (ℕ × ℕ))
    (hold : ∀ p ∈ old, 1 ≤ p.2 ∧ p.2 + alo ≤ i ∧ p.2 + blo ≤ p.1 + 1)
    (hi1 : alo ≤ i) (hi2 : i < ahi) : ∀ (js : List ℕ) (acc : List (ℕ × ℕ)) (best : FLMBest),
    (∀ j ∈ js, blo ≤ j ∧ j < bhi) →
    (∀ p ∈ acc, 1 ≤ p.2 ∧ p.2 + alo ≤ i + 1 ∧ p.2 + blo ≤ p.1 + 1) →
    ((1 ≤ best.bestsize →
      alo ≤ best.besti ∧ blo ≤ best.bestj ∧
      best.besti + best.bestsize ≤ ahi ∧ best.bestj + best.bestsize ≤ bhi) ∧
     (best.bestsize = 0 → best.besti = alo ∧ best.bestj = blo)) →
    (∀ p ∈ (flmInner i old js acc best).1,
      1 ≤ p.2 ∧ p.2 + alo ≤ i + 1 ∧ p.2 + blo ≤ p.1 + 1) ∧
    ((1 ≤ (flmInner i old js acc best).2.bestsize →
      alo ≤ (flmInner i old js acc best).2.besti ∧
      blo ≤ (flmInner i old js acc best).2.bestj ∧
      (flmInner i old js acc best).2.besti + (flmInner i old js acc best).2.bestsize ≤ ahi ∧
      (flmInner i old js acc best).2.bestj + (flmInner i old js acc best).2.bestsize ≤ bhi) ∧
     ((flmInner i old js acc best).2.bestsize = 0 →
      (flmInner i old js acc best).2.besti = alo ∧ (flmInner i old js acc best).2.bestj = blo)) := by
  intro js
  induction js with
  | nil =>
    intro acc best hjs hacc hbest
    exact ⟨hacc, hbest⟩
  | cons j js ih =>
    intro acc best hjs hacc hbest
    have hjmem := hjs j (List.mem_cons_self j js)
    have hk1 : 1 ≤ (if j = 0 then 0 else lookupLen old (j - 1)) + 1 := Nat.succ_le_succ (Nat.zero_le _)
    have hk2 : (if j = 0 then 0 else lookupLen old (j - 1)) + 1 + alo ≤ i + 1 := by
      by_cases hj : j = 0
      · rw [if_pos hj]
        omega
      · rw [if_neg hj]
        rcases lookupLen_cases old (j - 1) with hz | ⟨p, hpmem, hpj, hpv⟩
        · rw [hz]
          omega
        · have := hold p hpmem
          omega
    have hk3 : (if j = 0 then 0 else lookupLen old (j - 1)) + 1 + blo ≤ j + 1 := by
      by_cases hj : j = 0
      · rw [if_pos hj]
        omega
      · rw [if_neg hj]
        rcases lookupLen_cases old (j - 1) with hz | ⟨p, hpmem, hpj, hpv⟩
        · rw [hz]
          omega
        · have := (hold p hpmem).2.2
          rw [hpj] at this
          omega
    simp only [flmInner]
    generalize hK : (if j = 0 then 0 else lookupLen old (j - 1)) + 1 = K at hk1 hk2 hk3 ⊢
    refine ih _ _ (fun x hx => hjs x (List.mem_cons_of_mem j hx)) ?_ ?_
    · intro p hp
      rcases List.mem_cons.1 hp with rfl | hp
      · exact ⟨hk1, hk2, hk3⟩
      · exact hacc p hp
    · by_cases hlt : best.bestsize < K
      · rw [if_pos hlt]
        dsimp only
        constructor
        · intro _
          omega
        · intro h0
          omega
      · rw [if_neg hlt]
        exact hbest

theorem flmOuter_inv (a b : List Char) (alo ahi blo bhi : ℕ) : ∀ (n i : ℕ)
    (j2len : List (ℕ × ℕ)) (best : FLMBest),
    alo ≤ i → (n = 0 ∨ i + n ≤ ahi) →
    (∀ p ∈ j2len, 1 ≤ p.2 ∧ p.2 + alo ≤ i ∧ p.2 + blo ≤ p.1 + 1) →
    ((1 ≤ best.bestsize →
      alo ≤ best.besti ∧ blo ≤ best.bestj ∧
      best.besti + best.bestsize ≤ ahi ∧ best.bestj + best.bestsize ≤ bhi) ∧
     (best.bestsize = 0 → best.besti = alo ∧ best.bestj = blo)) →
    (1 ≤ (flmOuter a b blo bhi (List.range' i n) j2len best).bestsize →
      alo ≤ (flmOuter a b blo bhi (List.range' i n) j2len best).besti ∧
      blo ≤ (flmOuter a b blo bhi (List.range' i n) j2len best).bestj ∧
      (flmOuter a b blo bhi (List.range' i n) j2len best).besti +
        (flmOuter a b blo bhi (List.range' i n) j2len best).bestsize ≤ ahi ∧
      (flmOuter a b blo bhi (List.range' i n) j2len best).bestj +
        (flmOuter a b blo bhi (List.range' i n) j2len best).bestsize ≤ bhi) ∧
    ((flmOuter a b blo bhi (List.range' i n) j2len best).bestsize = 0 →
      (flmOuter a b blo bhi (List.range' i n) j2len best).besti = alo ∧
      (flmOuter a b blo bhi (List.range' i n) j2len best).bestj = blo) := by
  intro n
  induction n with
  | zero =>
    intro i j2len best _ _ _ hbest
    exact hbest
  | succ m ih =>
    intro i j2len best hi hn hold hbest
    rw [List.range'_succ]
    simp only [flmOuter]
    have hi2 : i < ahi := by omega
    have hjs : ∀ j ∈ ((b2j b (a.getD i ' ')).takeWhile (fun j => decide (j < bhi))).filter
        (fun j => decide (blo ≤ j)), blo ≤ j ∧ j < bhi := by
      intro j hj
      have hmem := List.mem_filter.1 hj
      have h1 : blo ≤ j := by
        have := hmem.2
        simpa using this
      have h2 : j < bhi := by
        have := mem_takeWhile_pred _ _ _ hmem.1
        simpa using this
      exact ⟨h1, h2⟩
    have hstep := flmInner_inv alo ahi blo bhi i j2len hold hi hi2
      (((b2j b (a.getD i ' ')).takeWhile (fun j => decide (j < bhi))).filter
        (fun j => decide (blo ≤ j))) [] best hjs (fun p hp => absurd hp (List.not_mem_nil p))
      hbest
    exact ih (i + 1) _ _ (by omega) (by omega) (fun p hp => by
      have := hstep.1 p hp
      omega) hstep.2

theorem findLongestMatch_bounds (a b : List Char) (alo ahi blo bhi : ℕ)
    (h : 1 ≤ (findLongestMatch a b alo ahi blo bhi).2.2) :
    alo ≤ (findLongestMatch a b alo ahi blo bhi).1 ∧
    blo ≤ (findLongestMatch a b alo ahi blo bhi).2.1 ∧
    (findLongestMatch a b alo ahi blo bhi).1 + (findLongestMatch a b alo ahi blo bhi).2.2 ≤ ahi ∧
    (findLongestMatch a b alo ahi blo bhi).2.1 + (findLongestMatch a b alo ahi blo bhi).2.2
      ≤ bhi := by
  have hout := flmOuter_inv a b alo ahi blo bhi (ahi - alo) alo [] ⟨alo, blo, 0⟩
    (Nat.le_refl alo) (by omega) (fun p hp => absurd hp (List.not_mem_nil p))
    ⟨fun h1 => absurd h1 (by dsimp only; omega), fun _ => ⟨rfl, rfl⟩⟩
  simp only [findLongestMatch] at h ⊢
  set B := flmOuter a b blo bhi (List.range' alo (ahi - alo)) [] ⟨alo, blo, 0⟩ with hB
  set t := extBack a b B.besti B.bestj (min (B.besti - alo) (B.bestj - blo)) with ht
  set u := extFwd a b (B.besti - t + (B.bestsize + t)) (B.bestj - t + (B.bestsize + t))
    (min (ahi - (B.besti - t + (B.bestsize + t))) (bhi - (B.bestj - t + (B.bestsize + t))))
    with hu
  have htle : t ≤ min (B.besti - alo) (B.bestj - blo) := by
    rw [ht]
    exact extBack_le a b _ _ _
  have hule : u ≤ min (ahi - (B.besti - t + (B.bestsize + t)))
      (bhi - (B.bestj - t + (B.bestsize + t))) := by
    rw [hu]
    exact extFwd_le a b _ _ _
  have htle2 := Nat.le_min.mp htle
  have hule2 := Nat.le_min.mp hule
  rcases Nat.eq_zero_or_pos B.bestsize with h0 | hpos
  · rcases hout.2 h0 with ⟨hia, hja⟩
    omega
  · have hbb := hout.1 hpos
    omega

theorem matchesTotF_le (a b : List Char) : ∀ (fuel alo ahi blo bhi : ℕ),
    matchesTotF a b fuel alo ahi blo bhi ≤ ahi - alo ∧
    matchesTotF a b fuel alo ahi blo bhi ≤ bhi - blo := by
  intro fuel
  induction fuel with
  | zero =>
    intro alo ahi blo bhi
    exact ⟨Nat.zero_le _, Nat.zero_le _⟩
  | succ n ih =>
    intro alo ahi blo bhi
    simp only [matchesTotF]
    set r := findLongestMatch a b alo ahi blo bhi with hr
    by_cases hk : r.2.2 = 0
    · rw [if_pos hk]
      exact ⟨Nat.zero_le _, Nat.zero_le _⟩
    · rw [if_neg hk]
      have hb := findLongestMatch_bounds a b alo ahi blo bhi
        (by rw [← hr]; omega)
      rw [← hr] at hb
      have h1 : (if alo < r.1 ∧ blo < r.2.1 then matchesTotF a b n alo r.1 blo r.2.1 else 0)
          ≤ r.1 - alo ∧
          (if alo < r.1 ∧ blo < r.2.1 then matchesTotF a b n alo r.1 blo r.2.1 else 0)
          ≤ r.2.1 - blo := by
        by_cases hg : alo < r.1 ∧ blo < r.2.1
        · rw [if_pos hg]
          exact ih alo r.1 blo r.2.1
        · rw [if_neg hg]
          exact ⟨Nat.zero_le _, Nat.zero_le _⟩
      have h2 : (if r.1 + r.2.2 < ahi ∧ r.2.1 + r.2.2 < bhi then
            matchesTotF a b n (r.1 + r.2.2) ahi (r.2.1 + r.2.2) bhi else 0)
          ≤ ahi - (r.1 + r.2.2) ∧
          (if r.1 + r.2.2 < ahi ∧ r.2.1 + r.2.2 < bhi then
            matchesTotF a b n (r.1 + r.2.2) ahi (r.2.1 + r.2.2) bhi else 0)
          ≤ bhi - (r.2.1 + r.2.2) := by
        by_cases hg : r.1 + r.2.2 < ahi ∧ r.2.1 + r.2.2 < bhi
        · rw [if_pos hg]
          exact ih (r.1 + r.2.2) ahi (r.2.1 + r.2.2) bhi
        · rw [if_neg hg]
          exact ⟨Nat.zero_le _, Nat.zero_le _⟩
      omega

theorem ratioQ_bounds (a b : List Char) : 0 ≤ ratioQ a b ∧ ratioQ a b ≤ 1 := by
  simp only [ratioQ]
  by_cases h : a.length + b.length = 0
  · rw [if_pos h]
    norm_num
  · rw [if_neg h]
    have hm := matchesTotF_le a b a.length 0 a.length 0 b.length
    have hml : matchesTotF a b a.length 0 a.length 0 b.length ≤ a.length := by omega
    have hmr : matchesTotF a b a.length 0 a.length 0 b.length ≤ b.length := by omega
    have hpos : (0 : ℚ) < (a.length : ℚ) + (b.length : ℚ) := by
      have : 0 < a.length + b.length := Nat.pos_of_ne_zero h
      exact_mod_cast this
    constructor
    · apply div_nonneg _ hpos.le
      positivity
    · rw [div_le_one hpos]
      have : 2 * matchesTotF a b a.length 0 a.length 0 b.length ≤ a.length + b.length := by
        omega
      exact_mod_cast this

/-- C7 (amended): the similarity score always lies in `[0, 1]`, is `0`
when either string is empty, and is case-insensitive (it depends only on
the lowercased inputs) — but it is NOT symmetric (see the
counterexample). -/
theorem C7_similarity_props :
    (∀ s1 s2 : String, 0 ≤ calculateSimilarity s1 s2 ∧ calculateSimilarity s1 s2 ≤ 1) ∧
    (∀ s1 s2 : String, s1 = "" ∨ s2 = "" → calculateSimilarity s1 s2 = 0) ∧
    (∀ s1 s2 t1 t2 : String, lowerStr t1 = lowerStr s1 → lowerStr t2 = lowerStr s2 →
      calculateSimilarity t1 t2 = calculateSimilarity s1 s2) := by
  refine ⟨?_, ?_, ?_⟩
  · intro s1 s2
    unfold calculateSimilarity
    by_cases h : s1 = "" ∨ s2 = ""
    · rw [if_pos h]
      norm_num
    · rw [if_neg h]
      exact ratioQ_bounds _ _
  · intro s1 s2 h
    unfold calculateSimilarity
    rw [if_pos h]
  · intro s1 s2 t1 t2 h1 h2
    have d1 : t1.data.map lowerChar = s1.data.map lowerChar := congrArg String.data h1
    have d2 : t2.data.map lowerChar = s2.data.map lowerChar := congrArg String.data h2
    have hlen1 : t1.data.length = s1.data.length := by
      have := congrArg List.length d1
      simpa using this
    have hlen2 : t2.data.length = s2.data.length := by
      have := congrArg List.length d2
      simpa using this
    have hdata : ∀ s : String, s = "" ↔ s.data = [] := by
      intro s
      constructor
      · intro h
        rw [h]
      · intro h
        apply String.ext
        rw [h]
    have e1 : (t1 = "") ↔ (s1 = "") := by
      rw [hdata, hdata, ← List.length_eq_zero, ← List.length_eq_zero, hlen1]
    have e2 : (t2 = "") ↔ (s2 = "") := by
      rw [hdata, hdata, ← List.length_eq_zero, ← List.length_eq_zero, hlen2]
    unfold calculateSimilarity
    exact if_congr (or_congr e1 e2) rfl (by rw [d1, d2])
